import Mathlib

/-!
Verification development for the motion-controller gesture engine.

The definitions below are a shallow embedding of the recognition and
dispatch core found under src/: the shared trigger debouncing
(src/recognition/base_trigger.py), the hand-raise and pose-hold trigger
variants, the gesture engine frame loop (src/recognition/gesture_engine.py),
the trigger/action registries, the keyboard and gamepad action executors and
the action dispatcher (src/actions/action_dispatcher.py).  Continuous
quantities (normalized coordinates, trigger values, wall-clock milliseconds)
are modelled as rationals; Python `int(...)` truncation is modelled by
`pyInt`; code that may raise is modelled with explicit failure flags or
`Option`.
-/

/-- Python `int(q)`: truncation toward zero of a rational. -/
def pyInt (q : ℚ) : ℤ :=
  if 0 ≤ q then ⌊q⌋ else ⌈q⌉

/-- Substring test on character lists, mirroring the Python `in` operator on
strings: `listHasInfix pat s` holds when `pat` occurs contiguously in `s`. -/
def listHasInfix (pat : List Char) : List Char → Bool
  | [] => pat.isEmpty
  | c :: rest => pat.isPrefixOf (c :: rest) || listHasInfix pat rest

/-- Python `pat in s` for strings. -/
def strHasInfix (s pat : String) : Bool :=
  listHasInfix pat.toList s.toList

/-- Python `x in collection` membership test over a list of names. -/
def listHas (l : List String) (n : String) : Bool :=
  match l with
  | [] => false
  | x :: rest => x = n || listHas rest n

/-! ## Shared trigger debouncing (base_trigger.py, `_apply_debouncing`) -/

/-- Debounce counters held by every trigger
(`_consecutive_active_frames`, `_consecutive_inactive_frames`,
`_debounced_active` in `BaseTrigger.__init__`). -/
structure DebounceState where
  consecutiveActive : ℕ
  consecutiveInactive : ℕ
  debouncedActive : Bool
deriving Repr, DecidableEq

/-- Initial debounce counters (all zero, debounced state false). -/
def initDebounce : DebounceState := ⟨0, 0, false⟩

/-- One step of `BaseTrigger._apply_debouncing`: update the consecutive
counters from the raw reading, then flip `debouncedActive` only once a
counter reaches the `debounceFrames` threshold. -/
def applyDebouncing (debounceFrames : ℕ) (s : DebounceState) (rawActive : Bool) :
    DebounceState :=
  let s1 :=
    if rawActive then
      { s with consecutiveActive := s.consecutiveActive + 1, consecutiveInactive := 0 }
    else
      { s with consecutiveInactive := s.consecutiveInactive + 1, consecutiveActive := 0 }
  if debounceFrames ≤ s1.consecutiveActive then
    { s1 with debouncedActive := true }
  else if debounceFrames ≤ s1.consecutiveInactive then
    { s1 with debouncedActive := false }
  else
    s1

/-- Feed a list of raw per-frame readings through the debouncer, collecting
the returned (debounced) outputs frame by frame. -/
def debounceRun (debounceFrames : ℕ) (s : DebounceState) : List Bool → List Bool
  | [] => []
  | r :: rest =>
    let s1 := applyDebouncing debounceFrames s r
    s1.debouncedActive :: debounceRun debounceFrames s1 rest

/-! ## Landmarks (detection/landmark_utils.py) -/

/-- One pose landmark: normalized position plus a visibility score
(`landmark.x`, `.y`, `.z`, `.visibility`). -/
structure Landmark where
  x : ℚ
  y : ℚ
  z : ℚ
  visibility : ℚ
deriving DecidableEq, Repr

/-- A pose landmark set: `none` models "no detection this frame"
(`landmarks is None`); inside a present set, an individual index may still be
missing (the Python accessor catches IndexError/AttributeError). -/
abbrev LandmarkSet : Type := Option (ℕ → Option Landmark)

/-- `get_landmark_position`: `None` when the set is absent or the index is
missing, otherwise the (x, y, z) triple. -/
def getLandmarkPosition (lm : LandmarkSet) (id : ℕ) : Option (ℚ × ℚ × ℚ) :=
  match lm with
  | none => none
  | some f => (f id).map (fun l => (l.x, l.y, l.z))

/-- Landmark indices used by the hand-raise trigger
(`LandmarkIndex.LEFT_WRIST` etc.). -/
def LEFT_SHOULDER : ℕ := 11
def RIGHT_SHOULDER : ℕ := 12
def LEFT_WRIST : ℕ := 15
def RIGHT_WRIST : ℕ := 16

/-! ## Hand raise trigger (triggers/hand_raise_trigger.py) -/

/-- The `is_active` / `current_value` instance state shared by all triggers
(`BaseTrigger.__init__`). -/
structure TrigState where
  isActive : Bool
  currentValue : ℚ
deriving DecidableEq, Repr

/-- Initial trigger state. -/
def initTrigState : TrigState := ⟨false, 0⟩

/-- Configuration of a hand-raise trigger: the `hand` and `threshold`
parameters. -/
structure HandRaiseConfig where
  hand : String
  threshold : ℚ
deriving DecidableEq, Repr

/-- `HandRaiseTrigger._check_hand`: if either position is missing, return
False without touching `current_value`; otherwise update `current_value`
to clamp(height_diff / threshold) and compare against the threshold. -/
def checkHand (cfg : HandRaiseConfig) (lm : LandmarkSet) (s : TrigState)
    (wristId shoulderId : ℕ) : TrigState × Bool :=
  match getLandmarkPosition lm wristId, getLandmarkPosition lm shoulderId with
  | some w, some sh =>
    let heightDiff := sh.2.1 - w.2.1
    let value := max 0 (min 1 (heightDiff / cfg.threshold))
    ({ s with currentValue := value }, decide (cfg.threshold < heightDiff))
  | _, _ => (s, false)

/-- `HandRaiseTrigger.detect`: absent landmark set resets state to
(false, 0.0); otherwise check the configured hand(s) and store the result
into `is_active`. -/
def handRaiseDetect (cfg : HandRaiseConfig) (lm : LandmarkSet) (s : TrigState) :
    TrigState × Bool :=
  match lm with
  | none => ({ isActive := false, currentValue := 0 }, false)
  | some _ =>
    let (s1, result) :=
      if cfg.hand = "left" then
        checkHand cfg lm s LEFT_WRIST LEFT_SHOULDER
      else if cfg.hand = "right" then
        checkHand cfg lm s RIGHT_WRIST RIGHT_SHOULDER
      else if cfg.hand = "both" then
        let (sL, rL) := checkHand cfg lm s LEFT_WRIST LEFT_SHOULDER
        let (sR, rR) := checkHand cfg lm sL RIGHT_WRIST RIGHT_SHOULDER
        (sR, rL && rR)
      else
        (s, false)
    ({ s1 with isActive := result }, result)

/-! ## Pose hold trigger (triggers/pose_hold_trigger.py) -/

/-- Pose-hold trigger instance state: the shared trigger fields plus
`hold_start_time` and `hold_elapsed_ms`. -/
structure PoseHoldState where
  isActive : Bool
  currentValue : ℚ
  holdStart : Option ℚ
  holdElapsedMs : ℚ
deriving DecidableEq, Repr

/-- Initial pose-hold state. -/
def initPoseHold : PoseHoldState := ⟨false, 0, none, 0⟩

/-- Nested inner-trigger configuration used by `PoseHoldTrigger.__init__`:
the optional `type` name (params do not influence whether an inner trigger is
created). -/
structure InnerTriggerConfig where
  typeName : Option String
deriving DecidableEq, Repr

/-- `PoseHoldTrigger.__init__` inner-trigger creation: the inner trigger
exists only when the `trigger` config is present and non-empty (Python
truthiness) and carries a `type`.  A `none` trigger config models both a
missing and an empty `trigger` parameter. -/
def poseHoldHasInner (triggerCfg : Option InnerTriggerConfig) : Bool :=
  match triggerCfg with
  | none => false
  | some ic => ic.typeName.isSome

/-- `PoseHoldTrigger.detect`, one frame.  `hasInner` is fixed at
construction; `landmarksPresent` models `landmarks is None`; `innerActive`
is the inner trigger's detect result this frame; `tMs` is
`time.time() * 1000`. -/
def poseHoldDetect (durationMs : ℚ) (hasInner landmarksPresent innerActive : Bool)
    (tMs : ℚ) (s : PoseHoldState) : PoseHoldState × Bool :=
  if !hasInner || !landmarksPresent then
    ({ s with isActive := false, currentValue := 0, holdStart := none }, false)
  else if innerActive then
    let start := s.holdStart.getD tMs
    let elapsed := tMs - start
    let value := min 1 (elapsed / durationMs)
    let active := decide (durationMs ≤ elapsed)
    ({ isActive := active, currentValue := value,
       holdStart := some start, holdElapsedMs := elapsed }, active)
  else
    ({ isActive := false, currentValue := 0, holdStart := none, holdElapsedMs := 0 }, false)

/-- Run pose-hold detect over a list of frames (inner-trigger activity and
timestamp per frame), with the inner trigger present and landmarks present,
collecting the (is_active, value) pair reported each frame. -/
def poseHoldRun (durationMs : ℚ) (s : PoseHoldState) :
    List (Bool × ℚ) → List (Bool × ℚ)
  | [] => []
  | (ia, t) :: rest =>
    ((poseHoldDetect durationMs true true ia t s).2,
     (poseHoldDetect durationMs true true ia t s).1.currentValue) ::
      poseHoldRun durationMs (poseHoldDetect durationMs true true ia t s).1 rest

/-! ## Trigger/action registries (trigger_registry.py, action_registry.py) -/

/-- The error raised by `Registry.create` on an unknown type name: the
KeyError message names the requested type and the list of registered type
names (`f"... type 'name' not registered. Available: list(keys)"`). -/
structure NotFoundErr where
  requested : String
  available : List String
deriving DecidableEq, Repr

/-- The registered trigger variants, one per `@TriggerRegistry.register`
decorator under src/recognition/triggers/. -/
inductive TriggerKind
  | handRaise | bodyLeanKind | poseHold | handGesture
  | armStretch | legRaise | motionSpeed | pointingGesture
deriving DecidableEq, Repr

/-- The trigger registry contents in registration (import) order. -/
def triggerRegistry : List (String × TriggerKind) :=
  [("hand_raise", .handRaise), ("body_lean", .bodyLeanKind), ("pose_hold", .poseHold),
   ("hand_gesture", .handGesture), ("arm_stretch", .armStretch),
   ("leg_raise", .legRaise), ("motion_speed", .motionSpeed),
   ("pointing_gesture", .pointingGesture)]

/-- The registered action variants, one per `@ActionRegistry.register`
decorator under src/actions/executors/. -/
inductive ActionVariant
  | keyboard | mouse | gamepad
deriving DecidableEq, Repr

/-- The action registry contents in registration (import) order. -/
def actionRegistry : List (String × ActionVariant) :=
  [("keyboard", .keyboard), ("mouse", .mouse), ("gamepad", .gamepad)]

/-- `TriggerRegistry.create`: unknown names raise a KeyError naming the
requested type and the set of registered names; known names construct the
variant. -/
def triggerRegistryCreate (name : String) : Except NotFoundErr TriggerKind :=
  match triggerRegistry.lookup name with
  | none => .error ⟨name, triggerRegistry.map Prod.fst⟩
  | some k => .ok k

/-- `ActionRegistry.create`, same shape as the trigger registry. -/
def actionRegistryCreate (name : String) : Except NotFoundErr ActionVariant :=
  match actionRegistry.lookup name with
  | none => .error ⟨name, actionRegistry.map Prod.fst⟩
  | some k => .ok k

/-! ## Keyboard action (executors/keyboard_action.py) -/

/-- Key events emitted to the pynput backend. -/
inductive KeyEvent
  | keyDown (k : String)
  | keyUp (k : String)
deriving DecidableEq, Repr

/-- Keyboard action instance state: `is_executing`, and `_was_active`
modelled as `Option Bool` because the attribute is created lazily
(`hasattr` probing). -/
structure KeyboardState where
  isExecuting : Bool
  wasActive : Option Bool
deriving DecidableEq, Repr

/-- Keyboard action state right after `__init__`. -/
def kbInit : KeyboardState := ⟨false, none⟩

/-- `KeyboardAction.execute`: the whole body runs inside `try`, so a raising
backend call (`pressFails`/`releaseFails` for the two pynput calls) is
caught, leaving the flags as they were at the raise point.  Returns the new
state and the emitted key events. -/
def kbExecute (key mode : String) (pressFails releaseFails : Bool)
    (s : KeyboardState) : KeyboardState × List KeyEvent :=
  if mode = "press" then
    let s0 : KeyboardState := { s with wasActive := some (s.wasActive.getD false) }
    if !(s.wasActive.getD false) then
      if pressFails then (s0, [])
      else if releaseFails then (s0, [.keyDown key])
      else ({ isExecuting := true, wasActive := some true }, [.keyDown key, .keyUp key])
    else (s0, [])
  else if mode = "hold" then
    if !s.isExecuting then
      if pressFails then (s, [])
      else ({ isExecuting := true, wasActive := some (s.wasActive.getD true) }, [.keyDown key])
    else (s, [])
  else (s, [])

/-- `KeyboardAction.release`: the backend key-up happens only in hold mode
while executing; the `finally` block always clears `is_executing` and, if the
attribute exists, `_was_active` — even when the backend call raises
(`releaseFails`). -/
def kbRelease (key mode : String) (releaseFails : Bool) (s : KeyboardState) :
    KeyboardState × List KeyEvent :=
  let events :=
    if s.isExecuting && mode = "hold" && !releaseFails then [KeyEvent.keyUp key] else []
  ({ isExecuting := false, wasActive := s.wasActive.map (fun _ => false) }, events)

/-- `KeyboardAction.reset_state`. -/
def kbResetState (_s : KeyboardState) : KeyboardState := ⟨false, some false⟩

/-! ## Gamepad action (executors/gamepad_action.py) -/

/-- The vgamepad VX360 backend state reached through
`left_joystick` / `right_joystick` / `left_trigger` / `right_trigger` /
`press_button` / `release_button`. -/
structure GamepadBackend where
  leftX : ℤ
  leftY : ℤ
  rightX : ℤ
  rightY : ℤ
  leftTrig : ℤ
  rightTrig : ℤ
  pressedButtons : List String
deriving DecidableEq, Repr

/-- Gamepad backend at rest. -/
def gpBackendInit : GamepadBackend := ⟨0, 0, 0, 0, 0, 0, []⟩

/-- The keys of `GamepadAction.BUTTONS`. -/
def gamepadButtons : List String :=
  ["a", "button_a", "b", "button_b", "x", "button_x", "y", "button_y",
   "lb", "left_bumper", "rb", "right_bumper", "back", "start",
   "left_thumb", "right_thumb", "dpad_up", "dpad_down", "dpad_left", "dpad_right"]

/-- Gamepad action configuration: the `control` name and the configured
`value` scale factor. -/
structure GamepadConfig where
  control : String
  value : ℚ
deriving DecidableEq, Repr

/-- Gamepad action instance state (`is_executing`). -/
structure GamepadState where
  isExecuting : Bool
deriving DecidableEq, Repr

/-- `GamepadAction.execute`: the entire body is guarded by
`if not self.is_executing`; analog controls write
`int(self.value * trigger_value * scale)` to the backend, after which
`is_executing` is set. -/
def gpExecute (cfg : GamepadConfig) (v : ℚ) (s : GamepadState) (b : GamepadBackend) :
    GamepadState × GamepadBackend :=
  if !s.isExecuting then
    let b1 :=
      if listHas gamepadButtons cfg.control then
        { b with pressedButtons := b.pressedButtons ++ [cfg.control] }
      else if cfg.control = "left_stick_x" then
        { b with leftX := pyInt (cfg.value * v * 32767), leftY := 0 }
      else if cfg.control = "left_stick_y" then
        { b with leftX := 0, leftY := pyInt (cfg.value * v * 32767) }
      else if cfg.control = "right_stick_x" then
        { b with rightX := pyInt (cfg.value * v * 32767), rightY := 0 }
      else if cfg.control = "right_stick_y" then
        { b with rightX := 0, rightY := pyInt (cfg.value * v * 32767) }
      else if cfg.control = "left_trigger" then
        { b with leftTrig := pyInt (cfg.value * v * 255) }
      else if cfg.control = "right_trigger" then
        { b with rightTrig := pyInt (cfg.value * v * 255) }
      else b
    (⟨true⟩, b1)
  else (s, b)

/-- `GamepadAction.release`: centers sticks / zeroes triggers / releases the
button while executing; always clears `is_executing`. -/
def gpRelease (cfg : GamepadConfig) (s : GamepadState) (b : GamepadBackend) :
    GamepadState × GamepadBackend :=
  let b1 :=
    if s.isExecuting then
      if listHas gamepadButtons cfg.control then
        { b with pressedButtons := b.pressedButtons.erase cfg.control }
      else if strHasInfix cfg.control "stick" then
        if strHasInfix cfg.control "left" then { b with leftX := 0, leftY := 0 }
        else { b with rightX := 0, rightY := 0 }
      else if strHasInfix cfg.control "trigger" then
        if strHasInfix cfg.control "left" then { b with leftTrig := 0 }
        else { b with rightTrig := 0 }
      else b
    else b
  (⟨false⟩, b1)

/-! ## Action dispatcher (actions/action_dispatcher.py) -/

/-- The per-action data the dispatcher inspects: `get_name()`, the gamepad
`control` string, the mouse `action_type`, and whether the action has a
`reset_state` attribute. -/
structure ActionSpec where
  kind : String
  control : String
  actionType : String
  hasResetState : Bool
deriving DecidableEq, Repr

/-- The dispatcher's continuous-action classification (dispatch lines 42-48):
gamepad controls whose name contains "stick" or "trigger", and mouse actions
whose `action_type` is "move". -/
def isContinuousAction (a : ActionSpec) : Bool :=
  if a.kind = "gamepad" then
    strHasInfix a.control "stick" || strHasInfix a.control "trigger"
  else if a.kind = "mouse" then
    a.actionType = "move"
  else false

/-- One activation tuple handed to `dispatch`, plus a failure flag modelling
whether an `execute` call issued for this record raises in the backend. -/
structure ActivationRec where
  name : String
  act : ActionSpec
  isActive : Bool
  value : ℚ
  execFails : Bool
deriving DecidableEq, Repr

/-- The calls the dispatcher makes into actions: a first `execute` at an
activation edge, a re-invoked `execute` for a continuous update, `release`,
and `reset_state` — with failing variants for calls that raise (and are
caught by the dispatcher). -/
inductive DispatchEv
  | execEdge (name : String) (v : ℚ)
  | execEdgeFail (name : String) (v : ℚ)
  | execUpd (name : String) (v : ℚ)
  | execUpdFail (name : String) (v : ℚ)
  | rel (name : String)
  | resetSt (name : String)
deriving DecidableEq, Repr

/-- The dispatcher's `active_actions` dict: insertion-ordered association
list from gesture name to (action, last value). -/
abbrev ActiveMap : Type := List (String × (ActionSpec × ℚ))

/-- Python dict lookup (`gesture_name in self.active_actions` /
`self.active_actions[gesture_name]`). -/
def mapLookup (m : ActiveMap) (n : String) : Option (ActionSpec × ℚ) :=
  match m with
  | [] => none
  | (k, av) :: rest => if k = n then some av else mapLookup rest n

/-- Python dict assignment: update in place when the key exists, append
otherwise. -/
def mapInsert (m : ActiveMap) (n : String) (av : ActionSpec × ℚ) : ActiveMap :=
  match m with
  | [] => [(n, av)]
  | (k, old) :: rest =>
    if k = n then (k, av) :: rest else (k, old) :: mapInsert rest n av

/-- The first loop of `ActionDispatcher.dispatch`: walk the activation
tuples, collecting `current_active`, executing activation edges (a failure
leaves the gesture untracked), and re-invoking `execute` for continuous
actions whose value moved by more than 0.01 (the stored value is updated
regardless). -/
def dispatchLoop : List ActivationRec → ActiveMap → List String → List DispatchEv →
    ActiveMap × List String × List DispatchEv
  | [], m, cur, evs => (m, cur, evs)
  | r :: rest, m, cur, evs =>
    if r.isActive then
      let cur1 := cur ++ [r.name]
      match mapLookup m r.name with
      | none =>
        if r.execFails then
          dispatchLoop rest m cur1 (evs ++ [.execEdgeFail r.name r.value])
        else
          dispatchLoop rest (mapInsert m r.name (r.act, r.value)) cur1
            (evs ++ [.execEdge r.name r.value])
      | some av =>
        let evs1 :=
          if isContinuousAction r.act && decide ((1 : ℚ)/100 < |av.2 - r.value|) then
            evs ++ [if r.execFails then DispatchEv.execUpdFail r.name r.value
                    else DispatchEv.execUpd r.name r.value]
          else evs
        dispatchLoop rest (mapInsert m r.name (r.act, r.value)) cur1 evs1
    else
      dispatchLoop rest m cur evs

/-- The release loop body run over `gestures_to_release`: each entry gets
`release()`, then `reset_state()` when the attribute exists and the release
did not raise. -/
def releaseEvs (relFails : String → Bool) : List (String × (ActionSpec × ℚ)) → List DispatchEv
  | [] => []
  | (k, av) :: rest =>
    [DispatchEv.rel k] ++
      (if !relFails k && av.1.hasResetState then [DispatchEv.resetSt k] else []) ++
      releaseEvs relFails rest

/-- The release phase of `dispatch`: every tracked name not in
`current_active` gets the release loop run on it and is removed from the
map. -/
def releasePhase (m : ActiveMap) (cur : List String) (relFails : String → Bool) :
    ActiveMap × List DispatchEv :=
  (m.filter (fun p => listHas cur p.1),
   releaseEvs relFails (m.filter (fun p => !listHas cur p.1)))

/-- `ActionDispatcher.dispatch`: the activation loop followed by the release
sweep; returns the new active map and the action calls made, in order. -/
def dispatch (m : ActiveMap) (recs : List ActivationRec) (relFails : String → Bool) :
    ActiveMap × List DispatchEv :=
  let step := dispatchLoop recs m [] []
  let rel := releasePhase step.1 step.2.1 relFails
  (rel.1, step.2.2 ++ rel.2)

/-- Run a sequence of `dispatch` calls from a starting map, concatenating the
emitted action calls. -/
def dispatchRun (m : ActiveMap) :
    List (List ActivationRec × (String → Bool)) → ActiveMap × List DispatchEv
  | [] => (m, [])
  | (recs, rf) :: rest =>
    let d := dispatch m recs rf
    let r := dispatchRun d.1 rest
    (r.1, d.2 ++ r.2)

/-- Interpret the dispatcher's calls for gesture `n`, bound to a gamepad
action with config `cfg`, against the gamepad action/backend state — exactly
what happens when the dispatcher invokes `action.execute` / `action.release`
on a `GamepadAction`. -/
def gpApplyEvents (cfg : GamepadConfig) (n : String) :
    List DispatchEv → GamepadState × GamepadBackend → GamepadState × GamepadBackend
  | [], sb => sb
  | e :: rest, sb =>
    let sb1 :=
      match e with
      | .execEdge m v => if m = n then gpExecute cfg v sb.1 sb.2 else sb
      | .execUpd m v => if m = n then gpExecute cfg v sb.1 sb.2 else sb
      | .rel m => if m = n then gpRelease cfg sb.1 sb.2 else sb
      | _ => sb
    gpApplyEvents cfg n rest sb1

/-! ## Gesture engine (recognition/gesture_engine.py) -/

/-- A loaded gesture: its name and bound action (the trigger's per-frame
behaviour enters through the evaluation function below). -/
structure GestureDef where
  name : String
  act : ActionSpec
deriving DecidableEq, Repr

/-- `GestureEngine.process` for one frame: `evalF g` is the outcome of
`g.trigger.detect(...)` followed by `g.trigger.get_value()` — `none` models
the detect call raising.  The loop appends one tuple per gesture whose
evaluation succeeds and skips (only) the raising gesture, continuing with
the rest. -/
def process (evalF : GestureDef → Option (Bool × ℚ)) :
    List GestureDef → List (String × ActionSpec × Bool × ℚ)
  | [] => []
  | g :: rest =>
    match evalF g with
    | some p => (g.name, g.act, p.1, p.2) :: process evalF rest
    | none => process evalF rest

/-! ## Derived trace predicates used by the dispatcher claims -/

/-- Count every `execute` call received by gesture `n` (edges and continuous
updates, raising or not). -/
def countExecCalls (n : String) : List DispatchEv → ℕ
  | [] => 0
  | e :: rest =>
    (match e with
     | .execEdge m _ => if m = n then 1 else 0
     | .execEdgeFail m _ => if m = n then 1 else 0
     | .execUpd m _ => if m = n then 1 else 0
     | .execUpdFail m _ => if m = n then 1 else 0
     | _ => 0) + countExecCalls n rest

/-- Count the `release` calls received by gesture `n`. -/
def countRel (n : String) : List DispatchEv → ℕ
  | [] => 0
  | e :: rest =>
    (match e with
     | .rel m => if m = n then 1 else 0
     | _ => 0) + countRel n rest

/-- Validate gesture `n`'s call trace against the 0-or-1 outstanding-execute
discipline: starting from `outstanding` (true = one unreleased execute), a
first `execute` is allowed only with none outstanding, a continuous-update
re-invocation and a `release` only with one outstanding.  Returns the final
outstanding flag, or `none` when the discipline is violated. -/
def traceRun (n : String) : List DispatchEv → Bool → Option Bool
  | [], t => some t
  | e :: rest, t =>
    match e with
    | .execEdge m _ =>
      if m = n then (if t then none else traceRun n rest true) else traceRun n rest t
    | .execUpd m _ =>
      if m = n then (if t then traceRun n rest t else none) else traceRun n rest t
    | .rel m =>
      if m = n then (if t then traceRun n rest false else none) else traceRun n rest t
    | _ => traceRun n rest t

/-- The most recent activation tuple recorded for `n` across a sequence of
dispatch calls, as its `is_active` flag. -/
def lastIsActiveFor (calls : List (List ActivationRec)) (n : String) : Option Bool :=
  ((calls.flatMap id).filter (fun r => r.name = n)).getLast?.map ActivationRec.isActive

/-- Whether an activation list reports `n` active. -/
def hasActiveRec (recs : List ActivationRec) (n : String) : Bool :=
  recs.any (fun r => r.name = n && r.isActive)

/-! ## Concrete scenario inputs used by individual claims -/

/-- A press-mode keyboard action as the dispatcher sees it (non-continuous,
has `reset_state`). -/
def kbActSpec : ActionSpec := ⟨"keyboard", "", "", true⟩

/-- A release-failure oracle under which no `release` call raises. -/
def noRelFail : String → Bool := fun _ => false

/-- Two loaded gestures for the engine-isolation scenario. -/
def c2g1 : GestureDef := ⟨"gesture_a", kbActSpec⟩

/-- Second gesture of the engine-isolation scenario. -/
def c2g2 : GestureDef := ⟨"gesture_b", kbActSpec⟩

/-- Frame evaluation in which the first gesture's detect raises and the
second detects actively with value 1. -/
def c2eval (g : GestureDef) : Option (Bool × ℚ) :=
  if g.name = "gesture_a" then none else some (true, 1)

/-- Hand-raise configuration: right hand, threshold 0.2. -/
def c6cfg : HandRaiseConfig := ⟨"right", 1/5⟩

/-- A frame with right wrist well above the right shoulder. -/
def c6lm1 : LandmarkSet :=
  some (fun i =>
    if i = RIGHT_SHOULDER then some ⟨1/2, 1/2, 0, 1⟩
    else if i = RIGHT_WRIST then some ⟨1/2, 1/5, 0, 1⟩
    else none)

/-- A frame whose landmark set is present but whose right wrist landmark is
missing. -/
def c6lm2 : LandmarkSet :=
  some (fun i => if i = RIGHT_SHOULDER then some ⟨1/2, 1/2, 0, 1⟩ else none)

/-- A gamepad action bound to the right trigger with configured scale 1. -/
def c1cfg : GamepadConfig := ⟨"right_trigger", 1⟩

/-- The same gamepad action as the dispatcher sees it. -/
def c1act : ActionSpec := ⟨"gamepad", "right_trigger", "", false⟩

/-- Two frames for the same gesture: an activation edge at value 0.5 and a
continuation at value 1.0 (a change above the 0.01 hysteresis). -/
def c1calls : List (List ActivationRec × (String → Bool)) :=
  [([⟨"g", c1act, true, 1/2, false⟩], noRelFail),
   ([⟨"g", c1act, true, 1, false⟩], noRelFail)]

/-- One activation tuple for a keyboard gesture that stays active. -/
def c4call1 : List ActivationRec := [⟨"g", kbActSpec, true, 1, false⟩]

/-- An active keyboard-gesture tuple whose `execute` raises in the backend. -/
def c7failRec : ActivationRec := ⟨"g", kbActSpec, true, 1, true⟩

/-- C3: feeding raw [T,T,F,T,T,T] with debounce_frames = 2 from the initial
state yields the debounced output trace [F,F,F,F,T,T]. -/
theorem C3_counterexample :
    debounceRun 2 initDebounce [true, true, false, true, true, true] ≠
      [false, false, false, false, true, true] := by
  decide

/-- C3 (amended): feeding raw [T,T,F,T,T,T] with debounce_frames = 2 from the
initial state yields the debounced output trace [F,T,T,T,T,T]: the output
turns true at the second consecutive active frame and the single inactive
frame does not reach the threshold, so the output stays true. -/
theorem C3_debounce_trace :
    debounceRun 2 initDebounce [true, true, false, true, true, true] =
      [false, true, true, true, true, true] := by
  decide

/-! ## Helper lemmas -/

theorem lookup_eq_none_of_not_mem_keys {β : Type} (l : List (String × β)) (n : String)
    (h : n ∉ l.map Prod.fst) : l.lookup n = none := by
  induction l with
  | nil => rfl
  | cons p rest ih =>
    simp only [List.map_cons, List.mem_cons, not_or] at h
    cases p with
    | mk k v =>
      have hk : (n == k) = false := by
        simp only [beq_eq_false_iff_ne, ne_eq]
        exact fun e => h.1 (by simp [e])
      simp only [List.lookup]
      rw [hk]
      exact ih h.2

/-- C8: for every type name not registered in the trigger or action
registry, `create` fails with an error naming the requested type and the
set of registered type names, and never returns an instance. -/
theorem C8_unknown_type_fails (name : String) :
    (name ∉ triggerRegistry.map Prod.fst →
      triggerRegistryCreate name = .error ⟨name, triggerRegistry.map Prod.fst⟩ ∧
      ∀ k, triggerRegistryCreate name ≠ .ok k) ∧
    (name ∉ actionRegistry.map Prod.fst →
      actionRegistryCreate name = .error ⟨name, actionRegistry.map Prod.fst⟩ ∧
      ∀ a, actionRegistryCreate name ≠ .ok a) := by
  constructor
  · intro h
    have hl := lookup_eq_none_of_not_mem_keys triggerRegistry name h
    constructor
    · simp [triggerRegistryCreate, hl]
    · intro k hk
      simp [triggerRegistryCreate, hl] at hk
  · intro h
    have hl := lookup_eq_none_of_not_mem_keys actionRegistry name h
    constructor
    · simp [actionRegistryCreate, hl]
    · intro a ha
      simp [actionRegistryCreate, hl] at ha

/-- C8 witness: the unknown type name "flick_wrist" is rejected by both
registries with the expected error payload. -/
theorem C8_unknown_type_fails_witness :
    triggerRegistryCreate "flick_wrist" =
      .error ⟨"flick_wrist", ["hand_raise", "body_lean", "pose_hold", "hand_gesture",
                              "arm_stretch", "leg_raise", "motion_speed", "pointing_gesture"]⟩ ∧
    actionRegistryCreate "flick_wrist" =
      .error ⟨"flick_wrist", ["keyboard", "mouse", "gamepad"]⟩ :=
  ⟨((C8_unknown_type_fails "flick_wrist").1 (by decide)).1.trans (by rfl),
   ((C8_unknown_type_fails "flick_wrist").2 (by decide)).1.trans (by rfl)⟩

/-- C9: `KeyboardAction.release` always leaves `is_executing = false` and an
effectively false `_was_active`, even when the backend key release raises;
in press mode it emits no key event; and after a release alone, a press-mode
execute fires a fresh down+up tap. -/
theorem C9_keyboard_release_rearms :
    (∀ (key mode : String) (rf : Bool) (s : KeyboardState),
      (kbRelease key mode rf s).1.isExecuting = false ∧
      (kbRelease key mode rf s).1.wasActive.getD false = false) ∧
    (∀ (key : String) (rf : Bool) (s : KeyboardState),
      (kbRelease key "press" rf s).2 = []) ∧
    (∀ (key : String) (rf : Bool) (s : KeyboardState),
      (kbExecute key "press" false false (kbRelease key "press" rf s).1).2 =
        [.keyDown key, .keyUp key] ∧
      (kbExecute key "press" false false (kbRelease key "press" rf s).1).1 =
        ⟨true, some true⟩) := by
  refine ⟨fun key mode rf s => ⟨rfl, ?_⟩, fun key rf s => ?_, fun key rf s => ?_⟩
  · simp only [kbRelease]
    cases s.wasActive <;> rfl
  · simp [kbRelease]
  · cases s with
    | mk e w => cases w <;> simp [kbRelease, kbExecute]

/-- C10: a PoseHoldTrigger constructed with no usable inner trigger
configuration (missing/empty `trigger` param or missing inner type) never
raises in detect and always reports is_active = false with value 0.0, for
every landmark input, inner activity and timestamp. -/
theorem C10_pose_hold_no_inner_safe
    (tc : Option InnerTriggerConfig) (hno : poseHoldHasInner tc = false)
    (durationMs : ℚ) (landmarksPresent innerActive : Bool) (tMs : ℚ)
    (s : PoseHoldState) :
    poseHoldDetect durationMs (poseHoldHasInner tc) landmarksPresent innerActive tMs s =
      ({ s with isActive := false, currentValue := 0, holdStart := none }, false) := by
  rw [hno]
  simp [poseHoldDetect]

/-- C10 witness: with a missing `trigger` parameter the constructed trigger
has no inner trigger, and a concrete detect call reports (false, 0.0). -/
theorem C10_pose_hold_no_inner_safe_witness :
    poseHoldHasInner none = false ∧
    poseHoldDetect 1000 (poseHoldHasInner none) true true 5
        ⟨true, 1/2, some 3, 700⟩ =
      (⟨false, 0, none, 700⟩, false) :=
  ⟨rfl, C10_pose_hold_no_inner_safe none rfl 1000 true true 5 ⟨true, 1/2, some 3, 700⟩⟩

/-- C2: with two loaded gestures, a detect that raises in the first makes
`process` return only one tuple: the raising gesture gets no (inactive)
tuple at all, so the result does not contain one tuple per loaded
gesture. -/
theorem C2_counterexample :
    process c2eval [c2g1, c2g2] = [("gesture_b", kbActSpec, true, 1)] ∧
    [c2g1, c2g2].length = 2 ∧
    ∀ x ∈ process c2eval [c2g1, c2g2], x.1 ≠ "gesture_a" := by
  refine ⟨by rfl, by rfl, ?_⟩
  intro x hx
  have : x = ("gesture_b", kbActSpec, true, 1) := by
    have h : process c2eval [c2g1, c2g2] = [("gesture_b", kbActSpec, true, 1)] := by rfl
    rw [h] at hx
    simpa using hx
  rw [this]
  decide

/-- C2 (amended): `process` returns, in load order, exactly one tuple per
gesture whose per-frame evaluation does not raise, with that gesture's name,
action and computed (is_active, value); a gesture whose detect raises is
omitted from the frame's list, and all remaining gestures are still
evaluated and returned with correct values. -/
theorem C2_process_isolation (evalF : GestureDef → Option (Bool × ℚ)) :
    ∀ gs : List GestureDef,
      process evalF gs =
        gs.filterMap (fun g => (evalF g).map (fun p => (g.name, g.act, p.1, p.2))) := by
  intro gs
  induction gs with
  | nil => rfl
  | cons g rest ih =>
    cases h : evalF g with
    | none => simp [process, h, List.filterMap_cons, ih]
    | some p => simp [process, h, List.filterMap_cons, ih]

/-- C6: the universal claim fails: after an active frame, a frame whose
landmark set is present but whose required right-wrist landmark is missing
makes HandRaise detect report is_active = false while `get_value` keeps the
stale value 1.0 instead of 0.0. -/
theorem C6_counterexample :
    (handRaiseDetect c6cfg c6lm2 (handRaiseDetect c6cfg c6lm1 initTrigState).1).2 = false ∧
    (handRaiseDetect c6cfg c6lm2 (handRaiseDetect c6cfg c6lm1 initTrigState).1).1.currentValue
      ≠ 0 ∧
    getLandmarkPosition c6lm2 RIGHT_WRIST = none := by
  refine ⟨?_, ?_, by rfl⟩
  · norm_num [handRaiseDetect, checkHand, getLandmarkPosition, c6cfg, c6lm1, c6lm2,
      initTrigState, RIGHT_WRIST, RIGHT_SHOULDER, LEFT_WRIST, LEFT_SHOULDER]
  · norm_num [handRaiseDetect, checkHand, getLandmarkPosition, c6cfg, c6lm1, c6lm2,
      initTrigState, RIGHT_WRIST, RIGHT_SHOULDER, LEFT_WRIST, LEFT_SHOULDER]
    decide

/-- C6 (amended): HandRaise detect never raises; with the landmark set
itself absent it reports is_active = false and value 0.0 from any prior
state; with the set present but a required wrist/shoulder landmark missing
(single-hand configuration) it reports is_active = false but leaves the
previously computed value unchanged instead of resetting it to 0.0. -/
theorem C6_missing_landmark_behaviour :
    (∀ (cfg : HandRaiseConfig) (s : TrigState),
      handRaiseDetect cfg none s = (⟨false, 0⟩, false)) ∧
    (∀ (cfg : HandRaiseConfig) (f : ℕ → Option Landmark) (s : TrigState),
      cfg.hand = "right" → (f RIGHT_WRIST = none ∨ f RIGHT_SHOULDER = none) →
      handRaiseDetect cfg (some f) s = (⟨false, s.currentValue⟩, false)) ∧
    (∀ (cfg : HandRaiseConfig) (f : ℕ → Option Landmark) (s : TrigState),
      cfg.hand = "left" → (f LEFT_WRIST = none ∨ f LEFT_SHOULDER = none) →
      handRaiseDetect cfg (some f) s = (⟨false, s.currentValue⟩, false)) := by
  refine ⟨fun cfg s => rfl, fun cfg f s hhand hmiss => ?_, fun cfg f s hhand hmiss => ?_⟩
  · have hne : ¬ cfg.hand = "left" := by rw [hhand]; decide
    rcases hmiss with h | h <;>
      simp [handRaiseDetect, checkHand, getLandmarkPosition, hhand, hne, h]
  · rcases hmiss with h | h <;>
      simp [handRaiseDetect, checkHand, getLandmarkPosition, hhand, h]

/-- C6 witness: a concrete single-hand configuration with every landmark
missing from a present set keeps the prior value 1 while reporting
inactive. -/
theorem C6_missing_landmark_behaviour_witness :
    handRaiseDetect c6cfg (some (fun _ => none)) ⟨true, 1⟩ = (⟨false, 1⟩, false) :=
  C6_missing_landmark_behaviour.2.1 c6cfg (fun _ => none) ⟨true, 1⟩ rfl (Or.inl rfl)

theorem poseHoldDetect_start_zero (t : ℚ) (s : PoseHoldState) (h : s.holdStart = some 0) :
    poseHoldDetect 1000 true true true t s =
      (⟨decide ((1000 : ℚ) ≤ t), min 1 (t / 1000), some 0, t⟩,
       decide ((1000 : ℚ) ≤ t)) := by
  simp [poseHoldDetect, h]

theorem poseHoldRun_start_zero (ts : List ℚ) :
    ∀ s : PoseHoldState, s.holdStart = some 0 →
      poseHoldRun 1000 s (ts.map (fun t => (true, t))) =
        ts.map (fun t => (decide ((1000 : ℚ) ≤ t), min 1 (t / 1000))) := by
  induction ts with
  | nil => intro s _; rfl
  | cons t rest ih =>
    intro s h
    simp only [List.map_cons, poseHoldRun, poseHoldDetect_start_zero t s h]
    exact congrArg _ (ih _ rfl)

theorem poseHoldRun_from_init (ts : List ℚ) :
    poseHoldRun 1000 initPoseHold (((0 : ℚ) :: ts).map (fun t => (true, t))) =
      ((0 : ℚ) :: ts).map (fun t => (decide ((1000 : ℚ) ≤ t), min 1 (t / 1000))) := by
  have h0 : poseHoldDetect 1000 true true true 0 initPoseHold =
      (⟨false, 0, some 0, 0⟩, false) := by
    norm_num [poseHoldDetect, initPoseHold]
  simp only [List.map_cons, poseHoldRun, h0]
  refine congrArg₂ _ ?_ (poseHoldRun_start_zero ts _ rfl)
  norm_num

/-- C5: for a PoseHold trigger with duration 1000 ms whose inner trigger is
continuously active starting at t = 0: detect reports is_active = false for
t < 1000 and true for t ≥ 1000, with value = clamp(t / 1000); the reported
values are monotonically nondecreasing when the frame timestamps are; value
reaches 1.0 once the threshold is reached; and a drop of the inner trigger
resets the accumulated elapsed time (and start timestamp) to zero. -/
theorem C5_pose_hold_semantics :
    (∀ ts : List ℚ,
      poseHoldRun 1000 initPoseHold (((0 : ℚ) :: ts).map (fun t => (true, t))) =
        ((0 : ℚ) :: ts).map (fun t => (decide ((1000 : ℚ) ≤ t), min 1 (t / 1000)))) ∧
    (∀ ts : List ℚ, List.Chain' (· ≤ ·) ((0 : ℚ) :: ts) →
      List.Chain' (fun a b => a.2 ≤ b.2)
        (poseHoldRun 1000 initPoseHold (((0 : ℚ) :: ts).map (fun t => (true, t))))) ∧
    (∀ (t : ℚ) (s : PoseHoldState), s.holdStart = some 0 → 1000 ≤ t →
      (poseHoldDetect 1000 true true true t s).1.currentValue = 1 ∧
      (poseHoldDetect 1000 true true true t s).2 = true) ∧
    (∀ (d t : ℚ) (s : PoseHoldState),
      poseHoldDetect d true true false t s = (⟨false, 0, none, 0⟩, false)) := by
  refine ⟨poseHoldRun_from_init, fun ts h => ?_, fun t s h ht => ?_, fun d t s => rfl⟩
  · rw [poseHoldRun_from_init ts]
    rw [List.chain'_map]
    refine h.imp (fun a b hab => ?_)
    simp only
    gcongr
  · rw [poseHoldDetect_start_zero t s h]
    have hval : min 1 (t / 1000) = (1 : ℚ) := by
      refine min_eq_left ?_
      rw [le_div_iff₀ (by norm_num : (0 : ℚ) < 1000)]
      linarith
    exact ⟨hval, by simp [ht]⟩

/-- C5 witness: with frames at t = 0, 400, 1000, 1600 the reported values
are nondecreasing, and a concrete detect at t = 1200 (hold started at 0)
reports value 1.0. -/
theorem C5_pose_hold_semantics_witness :
    List.Chain' (fun a b => a.2 ≤ b.2)
      (poseHoldRun 1000 initPoseHold
        (((0 : ℚ) :: [400, 1000, 1600]).map (fun t => (true, t)))) ∧
    (poseHoldDetect 1000 true true true 1200 ⟨false, 1/2, some 0, 500⟩).1.currentValue = 1 :=
  ⟨C5_pose_hold_semantics.2.1 [400, 1000, 1600] (by norm_num),
   (C5_pose_hold_semantics.2.2.1 1200 ⟨false, 1/2, some 0, 500⟩ rfl (by norm_num)).1⟩

/-- C1: for a gamepad analog control (right trigger, configured scale 1), an
activation edge at value 0.5 followed by a continuation at value 1.0 makes
the dispatcher re-invoke `execute(1.0)`, but `GamepadAction.execute` is
guarded by `if not self.is_executing`, so the backend trigger keeps the
stale scaled value 127 = int(1 * 0.5 * 255) instead of the freshly scaled
255 = int(1 * 1.0 * 255) the claim requires. -/
theorem C1_gamepad_continuation_ignored :
    (dispatchRun [] c1calls).2 = [DispatchEv.execEdge "g" (1/2), DispatchEv.execUpd "g" 1] ∧
    (gpApplyEvents c1cfg "g" (dispatchRun [] c1calls).2
        (⟨false⟩, gpBackendInit)).2.rightTrig = 127 ∧
    pyInt (c1cfg.value * 1 * 255) = 255 ∧ (127 : ℤ) ≠ 255 := by
  have hlt : ((1 : ℚ)/100 < |(1 : ℚ)/2 - 1|) := by
    rw [show |(1 : ℚ)/2 - 1| = 1/2 by rw [abs_of_nonpos] <;> norm_num]
    norm_num
  have hlt' : decide ((1 : ℚ)/100 < |(1 : ℚ)/2 - 1|) = true := decide_eq_true hlt
  have hcont : isContinuousAction c1act = true := by decide
  have hbtn : listHas gamepadButtons "right_trigger" = false := by decide
  have htrace : (dispatchRun [] c1calls).2 =
      [DispatchEv.execEdge "g" (1/2), DispatchEv.execUpd "g" 1] := by
    simp [dispatchRun, dispatch, dispatchLoop, releasePhase, releaseEvs, c1calls, c1act,
      noRelFail, mapInsert, mapLookup, hcont, hlt']
    refine ⟨by decide, ?_⟩
    rw [abs_of_nonpos (by norm_num)]
    norm_num
  refine ⟨htrace, ?_, by norm_num [pyInt, c1cfg], by decide⟩
  rw [htrace]
  simp only [gpApplyEvents, gpExecute, c1cfg, gpBackendInit]
  norm_num [hbtn, pyInt]
  decide

/-- C4: the claimed invariant fails as stated: after a dispatch call whose
activation list omits a tracked gesture (here: an empty second call), the
name is released and absent from the active map even though its most recent
activation tuple (from the previous call) had is_active = true. -/
theorem C4_counterexample :
    ¬ (((mapLookup (dispatchRun [] [(c4call1, noRelFail), ([], noRelFail)]).1 "g").isSome = true) ↔
        lastIsActiveFor [c4call1, []] "g" = some true) := by
  decide

/-- C7: the claimed invariant fails as stated: a non-continuous action whose
activation-edge `execute` raises is left untracked and retried as a fresh
edge on the next frame, so it receives two back-to-back `execute` calls with
no intervening `release` (outstanding execute calls reach 2). -/
theorem C7_counterexample :
    isContinuousAction kbActSpec = false ∧
    countExecCalls "g"
      (dispatchRun [] [([c7failRec], noRelFail), ([c7failRec], noRelFail)]).2 = 2 ∧
    countRel "g"
      (dispatchRun [] [([c7failRec], noRelFail), ([c7failRec], noRelFail)]).2 = 0 ∧
    ¬ (countExecCalls "g"
        (dispatchRun [] [([c7failRec], noRelFail), ([c7failRec], noRelFail)]).2 ≤
       countRel "g"
        (dispatchRun [] [([c7failRec], noRelFail), ([c7failRec], noRelFail)]).2 + 1) := by
  refine ⟨by decide, ?_, ?_, ?_⟩ <;> decide

theorem mapLookup_mapInsert (m : ActiveMap) (k : String) (av : ActionSpec × ℚ) (n : String) :
    mapLookup (mapInsert m k av) n = if k = n then some av else mapLookup m n := by
  induction m with
  | nil => simp [mapInsert, mapLookup]
  | cons p rest ih =>
    cases p with
    | mk k0 av0 =>
      by_cases h0 : k0 = k
      · subst h0
        by_cases h : k0 = n <;> simp [mapInsert, mapLookup, h]
      · by_cases h : k0 = n
        · subst h
          have hk : ¬ k = k0 := fun e => h0 e.symm
          simp [mapInsert, mapLookup, h0, hk]
        · simp [mapInsert, mapLookup, h0, h, ih]

theorem mapLookup_filter (q : String → Bool) (n : String) :
    ∀ m : ActiveMap,
      mapLookup (m.filter (fun p => q p.1)) n = if q n then mapLookup m n else none := by
  intro m
  induction m with
  | nil => simp [mapLookup]
  | cons p rest ih =>
    cases p with
    | mk k av =>
      by_cases hk : k = n
      · subst hk
        cases hq : q k <;> simp [List.filter_cons, hq, mapLookup, ih]
      · cases hq : q k <;> simp [List.filter_cons, hq, mapLookup, hk, ih]

theorem listHas_append_one (cur : List String) (x n : String) :
    listHas (cur ++ [x]) n = (listHas cur n || decide (x = n)) := by
  induction cur with
  | nil => simp [listHas]
  | cons c rest ih => simp [listHas, ih, Bool.or_assoc]

theorem hasActiveRec_cons (r : ActivationRec) (rest : List ActivationRec) (n : String) :
    hasActiveRec (r :: rest) n = ((decide (r.name = n) && r.isActive) || hasActiveRec rest n) := by
  simp [hasActiveRec]

theorem dispatchLoop_cons_inactive (r : ActivationRec) (rest : List ActivationRec)
    (m : ActiveMap) (cur : List String) (evs : List DispatchEv)
    (hA : r.isActive = false) :
    dispatchLoop (r :: rest) m cur evs = dispatchLoop rest m cur evs := by
  simp [dispatchLoop, hA]

theorem dispatchLoop_cons_edge (r : ActivationRec) (rest : List ActivationRec)
    (m : ActiveMap) (cur : List String) (evs : List DispatchEv)
    (hA : r.isActive = true) (hL : mapLookup m r.name = none) (hE : r.execFails = false) :
    dispatchLoop (r :: rest) m cur evs =
      dispatchLoop rest (mapInsert m r.name (r.act, r.value)) (cur ++ [r.name])
        (evs ++ [DispatchEv.execEdge r.name r.value]) := by
  simp [dispatchLoop, hA, hL, hE]

theorem dispatchLoop_cons_edgeFail (r : ActivationRec) (rest : List ActivationRec)
    (m : ActiveMap) (cur : List String) (evs : List DispatchEv)
    (hA : r.isActive = true) (hL : mapLookup m r.name = none) (hE : r.execFails = true) :
    dispatchLoop (r :: rest) m cur evs =
      dispatchLoop rest m (cur ++ [r.name])
        (evs ++ [DispatchEv.execEdgeFail r.name r.value]) := by
  simp [dispatchLoop, hA, hL, hE]

theorem dispatchLoop_cons_tracked (r : ActivationRec) (rest : List ActivationRec)
    (m : ActiveMap) (cur : List String) (evs : List DispatchEv) (av : ActionSpec × ℚ)
    (hA : r.isActive = true) (hL : mapLookup m r.name = some av) :
    dispatchLoop (r :: rest) m cur evs =
      dispatchLoop rest (mapInsert m r.name (r.act, r.value)) (cur ++ [r.name])
        (evs ++
          (if isContinuousAction r.act && decide ((1 : ℚ)/100 < |av.2 - r.value|) then
            [if r.execFails then DispatchEv.execUpdFail r.name r.value
             else DispatchEv.execUpd r.name r.value]
          else [])) := by
  simp [dispatchLoop, hA, hL]
  split <;> simp

theorem dispatchLoop_map_isSome (n : String) :
    ∀ (recs : List ActivationRec) (m : ActiveMap) (cur : List String) (evs : List DispatchEv),
      (∀ r ∈ recs, r.execFails = false) →
      (mapLookup (dispatchLoop recs m cur evs).1 n).isSome =
        ((mapLookup m n).isSome || hasActiveRec recs n) := by
  intro recs
  induction recs with
  | nil => intro m cur evs _; simp [dispatchLoop, hasActiveRec]
  | cons r rest ih =>
    intro m cur evs hf
    have hfr : r.execFails = false := hf r (List.mem_cons_self r rest)
    have hfrest : ∀ x ∈ rest, x.execFails = false := fun x hx => hf x (List.mem_cons_of_mem r hx)
    rw [hasActiveRec_cons]
    cases hA : r.isActive
    · rw [dispatchLoop_cons_inactive r rest m cur evs hA, ih _ _ _ hfrest]
      simp
    · cases hL : mapLookup m r.name with
      | none =>
        rw [dispatchLoop_cons_edge r rest m cur evs hA hL hfr, ih _ _ _ hfrest,
          mapLookup_mapInsert]
        by_cases hn : r.name = n
        · rw [hn] at hL
          simp [hn, hL]
        · simp [hn]
      | some av =>
        rw [dispatchLoop_cons_tracked r rest m cur evs av hA hL, ih _ _ _ hfrest,
          mapLookup_mapInsert]
        by_cases hn : r.name = n
        · rw [hn] at hL
          simp [hn, hL]
        · simp [hn]

theorem dispatchLoop_cur_listHas (n : String) :
    ∀ (recs : List ActivationRec) (m : ActiveMap) (cur : List String) (evs : List DispatchEv),
      listHas (dispatchLoop recs m cur evs).2.1 n = (listHas cur n || hasActiveRec recs n) := by
  intro recs
  induction recs with
  | nil => intro m cur evs; simp [dispatchLoop, hasActiveRec]
  | cons r rest ih =>
    intro m cur evs
    rw [hasActiveRec_cons]
    cases hA : r.isActive
    · rw [dispatchLoop_cons_inactive r rest m cur evs hA, ih]
      simp
    · cases hL : mapLookup m r.name with
      | none =>
        cases hFail : r.execFails
        · rw [dispatchLoop_cons_edge r rest m cur evs hA hL hFail, ih, listHas_append_one]
          simp [hA, Bool.or_assoc]
        · rw [dispatchLoop_cons_edgeFail r rest m cur evs hA hL hFail, ih, listHas_append_one]
          simp [hA, Bool.or_assoc]
      | some av =>
        rw [dispatchLoop_cons_tracked r rest m cur evs av hA hL, ih, listHas_append_one]
        simp [hA, Bool.or_assoc]

theorem dispatch_map_isSome (n : String) (m : ActiveMap) (recs : List ActivationRec)
    (rf : String → Bool) (hf : ∀ r ∈ recs, r.execFails = false) :
    (mapLookup (dispatch m recs rf).1 n).isSome = hasActiveRec recs n := by
  simp only [dispatch, releasePhase]
  rw [mapLookup_filter]
  rw [dispatchLoop_cur_listHas]
  simp only [listHas]
  cases hAct : hasActiveRec recs n
  · simp
  · simp only [Bool.or_true, if_true]
    rw [dispatchLoop_map_isSome n recs m [] [] hf, hAct]
    simp

theorem dispatchRun_map_isSome (n : String) :
    ∀ (calls : List (List ActivationRec × (String → Bool))) (m : ActiveMap),
      (∀ c ∈ calls, ∀ r ∈ c.1, r.execFails = false) →
      (mapLookup (dispatchRun m calls).1 n).isSome =
        (match calls.getLast? with
         | none => (mapLookup m n).isSome
         | some c => hasActiveRec c.1 n) := by
  intro calls
  induction calls with
  | nil => intro m _; simp [dispatchRun]
  | cons c rest ih =>
    intro m hf
    have hfc : ∀ r ∈ c.1, r.execFails = false := hf c (List.mem_cons_self c rest)
    have hfrest : ∀ x ∈ rest, ∀ r ∈ x.1, r.execFails = false :=
      fun x hx => hf x (List.mem_cons_of_mem c hx)
    cases c with
    | mk recs rf =>
      simp only [dispatchRun]
      rw [ih _ hfrest]
      cases rest with
      | nil => simpa using dispatch_map_isSome n m recs rf hfc
      | cons c2 rest2 =>
        rw [List.getLast?_cons_cons]
        cases h : (c2 :: rest2).getLast? with
        | none => simp at h
        | some c3 => rfl

/-- C4 (amended): provided no activation-edge `execute` call raises, after
every sequence of dispatch calls a gesture name is present in the active map
iff the most recent dispatch call's activation list contains a tuple for it
with is_active = true.  (As stated the claim fails: a raising execute leaves
the gesture untracked, and a name omitted from the latest call is released
even when its most recent tuple, from an earlier call, was active.) -/
theorem C4_active_map_invariant (calls : List (List ActivationRec × (String → Bool)))
    (hf : ∀ c ∈ calls, ∀ r ∈ c.1, r.execFails = false) (n : String) :
    (mapLookup (dispatchRun [] calls).1 n).isSome =
      (match calls.getLast? with
       | none => false
       | some c => hasActiveRec c.1 n) := by
  rw [dispatchRun_map_isSome n calls [] hf]
  cases calls.getLast? <;> simp [mapLookup]

/-- C4 witness: after one dispatch call whose list reports "g" active (and
whose execute succeeds), "g" is present in the active map. -/
theorem C4_active_map_invariant_witness :
    (mapLookup (dispatchRun [] [(c4call1, noRelFail)]).1 "g").isSome = true := by
  have hf : ∀ c ∈ [(c4call1, noRelFail)], ∀ r ∈ c.1, r.execFails = false := by
    intro c hc r hr
    simp only [List.mem_singleton] at hc
    subst hc
    simp only [c4call1, List.mem_singleton] at hr
    subst hr
    rfl
  exact (C4_active_map_invariant [(c4call1, noRelFail)] hf "g").trans (by decide)

theorem traceRun_append (n : String) :
    ∀ (a b : List DispatchEv) (t : Bool),
      traceRun n (a ++ b) t = (traceRun n a t).bind (fun t1 => traceRun n b t1) := by
  intro a
  induction a with
  | nil => intro b t; simp [traceRun]
  | cons e rest ih =>
    intro b t
    cases e <;> simp only [List.cons_append, traceRun] <;> (try split_ifs) <;> simp [ih]

theorem releaseEvs_skip (n : String) (rf : String → Bool) :
    ∀ (l : List (String × (ActionSpec × ℚ))), n ∉ l.map Prod.fst →
      ∀ t, traceRun n (releaseEvs rf l) t = some t := by
  intro l
  induction l with
  | nil => intro _ t; simp [releaseEvs, traceRun]
  | cons p rest ih =>
    intro hmem t
    cases p with
    | mk k av =>
      simp only [List.map_cons, List.mem_cons, not_or] at hmem
      have hk : ¬ k = n := fun e => hmem.1 e.symm
      cases hR : (!rf k && av.1.hasResetState) <;>
        simp [releaseEvs, traceRun, hk, hR, ih hmem.2]

theorem releaseEvs_lookup (n : String) (rf : String → Bool) :
    ∀ (l : List (String × (ActionSpec × ℚ))), (l.map Prod.fst).Nodup →
      traceRun n (releaseEvs rf l) ((mapLookup l n).isSome) = some false := by
  intro l
  induction l with
  | nil => simp [releaseEvs, traceRun, mapLookup]
  | cons p rest ih =>
    intro hnd
    cases p with
    | mk k av =>
      simp only [List.map_cons, List.nodup_cons] at hnd
      by_cases hk : k = n
      · subst hk
        cases hR : (!rf k && av.1.hasResetState) <;>
          simp [releaseEvs, traceRun, mapLookup, hR, releaseEvs_skip _ rf rest hnd.1]
      · cases hR : (!rf k && av.1.hasResetState) <;>
          simp [releaseEvs, traceRun, mapLookup, hk, hR, ih hnd.2]

theorem keys_filter_not_mem (n : String) (q : String → Bool) (m : ActiveMap)
    (hq : q n = false) : n ∉ (m.filter (fun p => q p.1)).map Prod.fst := by
  intro hmem
  rcases List.mem_map.mp hmem with ⟨p, hp, hpe⟩
  have hq2 := (List.mem_filter.mp hp).2
  rw [hpe, hq] at hq2
  exact absurd hq2 (by simp)

theorem keys_filter_nodup (q : String → Bool) (m : ActiveMap)
    (hk : (m.map Prod.fst).Nodup) :
    ((m.filter (fun p => q p.1)).map Prod.fst).Nodup :=
  hk.sublist ((m.filter_sublist).map Prod.fst)

theorem mem_keys_mapInsert (n k : String) (av : ActionSpec × ℚ) :
    ∀ m : ActiveMap,
      n ∈ (mapInsert m k av).map Prod.fst ↔ (n ∈ m.map Prod.fst ∨ n = k) := by
  intro m
  induction m with
  | nil => simp [mapInsert]
  | cons p rest ih =>
    cases p with
    | mk k0 av0 =>
      by_cases h0 : k0 = k
      · subst h0
        simp only [mapInsert, if_true]
        simp only [List.map_cons, List.mem_cons]
        constructor
        · exact fun h => Or.inl h
        · rintro (h | h)
          · exact h
          · exact Or.inl h
      · simp only [mapInsert, if_neg h0, List.map_cons, List.mem_cons, ih]
        tauto

theorem mapInsert_nodup (k : String) (av : ActionSpec × ℚ) :
    ∀ m : ActiveMap, (m.map Prod.fst).Nodup →
      ((mapInsert m k av).map Prod.fst).Nodup := by
  intro m
  induction m with
  | nil => intro _; simp [mapInsert]
  | cons p rest ih =>
    intro h
    cases p with
    | mk k0 av0 =>
      simp only [List.map_cons, List.nodup_cons] at h
      by_cases h0 : k0 = k
      · subst h0
        simp only [mapInsert, if_true, List.map_cons, List.nodup_cons]
        exact h
      · simp only [mapInsert, if_neg h0, List.map_cons, List.nodup_cons]
        refine ⟨fun hmem => ?_, ih h.2⟩
        rcases (mem_keys_mapInsert k0 k av rest).mp hmem with hmem2 | hmem2
        · exact h.1 hmem2
        · exact h0 hmem2

theorem dispatchLoop_nodup :
    ∀ (recs : List ActivationRec) (m : ActiveMap) (cur : List String) (evs : List DispatchEv),
      (m.map Prod.fst).Nodup → (((dispatchLoop recs m cur evs).1).map Prod.fst).Nodup := by
  intro recs
  induction recs with
  | nil => intro m cur evs h; simpa [dispatchLoop] using h
  | cons r rest ih =>
    intro m cur evs h
    cases hA : r.isActive
    · rw [dispatchLoop_cons_inactive r rest m cur evs hA]
      exact ih _ _ _ h
    · cases hL : mapLookup m r.name with
      | none =>
        cases hFail : r.execFails
        · rw [dispatchLoop_cons_edge r rest m cur evs hA hL hFail]
          exact ih _ _ _ (mapInsert_nodup _ _ _ h)
        · rw [dispatchLoop_cons_edgeFail r rest m cur evs hA hL hFail]
          exact ih _ _ _ h
      | some av =>
        rw [dispatchLoop_cons_tracked r rest m cur evs av hA hL]
        exact ih _ _ _ (mapInsert_nodup _ _ _ h)

theorem releasePhase_traceRun (n : String) (m : ActiveMap) (cur : List String)
    (rf : String → Bool) (hk : (m.map Prod.fst).Nodup) :
    traceRun n (releasePhase m cur rf).2 ((mapLookup m n).isSome) =
      some ((mapLookup (releasePhase m cur rf).1 n).isSome) := by
  simp only [releasePhase]
  cases hc : listHas cur n
  · have hkept : mapLookup (m.filter (fun p => listHas cur p.1)) n = none := by
      rw [mapLookup_filter (fun k => listHas cur k) n m, hc]
      simp
    have hrel : mapLookup (m.filter (fun p => !listHas cur p.1)) n = mapLookup m n := by
      rw [mapLookup_filter (fun k => !listHas cur k) n m, hc]
      simp
    rw [hkept, ← hrel]
    have hmain := releaseEvs_lookup n rf (m.filter (fun p => !listHas cur p.1))
      (keys_filter_nodup (fun k => !listHas cur k) m hk)
    simpa using hmain
  · have hkept : mapLookup (m.filter (fun p => listHas cur p.1)) n = mapLookup m n := by
      rw [mapLookup_filter (fun k => listHas cur k) n m, hc]
      simp
    have hout : n ∉ (m.filter (fun p => !listHas cur p.1)).map Prod.fst := by
      refine keys_filter_not_mem n (fun k => !listHas cur k) m ?_
      simp [hc]
    rw [hkept]
    exact releaseEvs_skip n rf _ hout _

theorem dispatchLoop_traceRun (n : String) :
    ∀ (recs : List ActivationRec) (m : ActiveMap) (cur : List String) (evs : List DispatchEv)
      (t0 : Bool),
      (∀ r ∈ recs, r.execFails = false) →
      traceRun n evs t0 = some ((mapLookup m n).isSome) →
      traceRun n (dispatchLoop recs m cur evs).2.2 t0 =
        some ((mapLookup (dispatchLoop recs m cur evs).1 n).isSome) := by
  intro recs
  induction recs with
  | nil => intro m cur evs t0 _ hev; simpa [dispatchLoop] using hev
  | cons r rest ih =>
    intro m cur evs t0 hf hev
    have hfr : r.execFails = false := hf r (List.mem_cons_self r rest)
    have hfrest : ∀ x ∈ rest, x.execFails = false := fun x hx => hf x (List.mem_cons_of_mem r hx)
    cases hA : r.isActive
    · rw [dispatchLoop_cons_inactive r rest m cur evs hA]
      exact ih _ _ _ _ hfrest hev
    · cases hL : mapLookup m r.name with
      | none =>
        rw [dispatchLoop_cons_edge r rest m cur evs hA hL hfr]
        refine ih _ _ _ _ hfrest ?_
        rw [traceRun_append, hev, mapLookup_mapInsert]
        by_cases hn : r.name = n
        · rw [hn] at hL
          simp [traceRun, hn, hL]
        · simp [traceRun, hn]
      | some av =>
        rw [dispatchLoop_cons_tracked r rest m cur evs av hA hL]
        refine ih _ _ _ _ hfrest ?_
        rw [traceRun_append, hev, mapLookup_mapInsert]
        by_cases hn : r.name = n
        · rw [hn] at hL
          cases hC : (isContinuousAction r.act && decide ((1 : ℚ)/100 < |av.2 - r.value|)) <;>
            simp [traceRun, hn, hL, hfr, hC]
        · cases hC : (isContinuousAction r.act && decide ((1 : ℚ)/100 < |av.2 - r.value|)) <;>
            simp [traceRun, hn, hfr, hC]

theorem dispatch_nodup (m : ActiveMap) (recs : List ActivationRec) (rf : String → Bool)
    (hk : (m.map Prod.fst).Nodup) :
    (((dispatch m recs rf).1).map Prod.fst).Nodup := by
  simp only [dispatch, releasePhase]
  exact keys_filter_nodup (fun k => listHas (dispatchLoop recs m [] []).2.1 k) _
    (dispatchLoop_nodup recs m [] [] hk)

theorem dispatch_traceRun (n : String) (m : ActiveMap) (recs : List ActivationRec)
    (rf : String → Bool) (hk : (m.map Prod.fst).Nodup)
    (hf : ∀ r ∈ recs, r.execFails = false) :
    traceRun n (dispatch m recs rf).2 ((mapLookup m n).isSome) =
      some ((mapLookup (dispatch m recs rf).1 n).isSome) := by
  simp only [dispatch]
  rw [traceRun_append,
    dispatchLoop_traceRun n recs m [] [] ((mapLookup m n).isSome) hf (by simp [traceRun])]
  simp only [Option.some_bind]
  exact releasePhase_traceRun n _ _ rf (dispatchLoop_nodup recs m [] [] hk)

theorem dispatchRun_traceRun (n : String) :
    ∀ (calls : List (List ActivationRec × (String → Bool))) (m : ActiveMap),
      (m.map Prod.fst).Nodup →
      (∀ c ∈ calls, ∀ r ∈ c.1, r.execFails = false) →
      traceRun n (dispatchRun m calls).2 ((mapLookup m n).isSome) =
        some ((mapLookup (dispatchRun m calls).1 n).isSome) := by
  intro calls
  induction calls with
  | nil => intro m _ _; simp [dispatchRun, traceRun]
  | cons c rest ih =>
    intro m hk hf
    have hfc : ∀ r ∈ c.1, r.execFails = false := hf c (List.mem_cons_self c rest)
    have hfrest : ∀ x ∈ rest, ∀ r ∈ x.1, r.execFails = false :=
      fun x hx => hf x (List.mem_cons_of_mem c hx)
    cases c with
    | mk recs rf =>
      simp only [dispatchRun]
      rw [traceRun_append, dispatch_traceRun n m recs rf hk hfc]
      simp only [Option.some_bind]
      exact ih _ (dispatch_nodup m recs rf hk) hfrest

theorem dispatchLoop_no_upd (n : String) (v : ℚ) (A : String → ActionSpec)
    (hcont : isContinuousAction (A n) = false) :
    ∀ (recs : List ActivationRec) (m : ActiveMap) (cur : List String) (evs : List DispatchEv),
      (∀ r ∈ recs, r.act = A r.name) →
      DispatchEv.execUpd n v ∈ (dispatchLoop recs m cur evs).2.2 →
      DispatchEv.execUpd n v ∈ evs := by
  intro recs
  induction recs with
  | nil => intro m cur evs _ h; simpa [dispatchLoop] using h
  | cons r rest ih =>
    intro m cur evs hacts hmem
    have hactr : r.act = A r.name := hacts r (List.mem_cons_self r rest)
    have hactsrest : ∀ x ∈ rest, x.act = A x.name :=
      fun x hx => hacts x (List.mem_cons_of_mem r hx)
    cases hA : r.isActive
    · rw [dispatchLoop_cons_inactive r rest m cur evs hA] at hmem
      exact ih _ _ _ hactsrest hmem
    · cases hL : mapLookup m r.name with
      | none =>
        cases hFail : r.execFails
        · rw [dispatchLoop_cons_edge r rest m cur evs hA hL hFail] at hmem
          rcases List.mem_append.mp (ih _ _ _ hactsrest hmem) with h | h
          · exact h
          · simp at h
        · rw [dispatchLoop_cons_edgeFail r rest m cur evs hA hL hFail] at hmem
          rcases List.mem_append.mp (ih _ _ _ hactsrest hmem) with h | h
          · exact h
          · simp at h
      | some av =>
        rw [dispatchLoop_cons_tracked r rest m cur evs av hA hL] at hmem
        rcases List.mem_append.mp (ih _ _ _ hactsrest hmem) with h | h
        · exact h
        · exfalso
          cases hC : (isContinuousAction r.act && decide ((1 : ℚ)/100 < |av.2 - r.value|))
          · rw [hC] at h
            simp at h
          · rw [hC] at h
            simp only [if_true] at h
            cases hFail : r.execFails
            · rw [hFail] at h
              simp at h
              have hR : isContinuousAction r.act = true := by
                cases hx : isContinuousAction r.act
                · rw [hx] at hC
                  simp at hC
                · rfl
              rw [hactr] at hR
              rw [← h.1] at hR
              rw [hcont] at hR
              simp at hR
            · rw [hFail] at h
              simp at h

theorem releaseEvs_no_upd (n : String) (v : ℚ) (rf : String → Bool) :
    ∀ l : List (String × (ActionSpec × ℚ)),
      DispatchEv.execUpd n v ∉ releaseEvs rf l := by
  intro l
  induction l with
  | nil => simp [releaseEvs]
  | cons p rest ih =>
    cases p with
    | mk k av =>
      cases hR : (!rf k && av.1.hasResetState) <;>
        simp [releaseEvs, hR, ih]

theorem dispatchRun_no_upd (n : String) (v : ℚ) (A : String → ActionSpec)
    (hcont : isContinuousAction (A n) = false) :
    ∀ (calls : List (List ActivationRec × (String → Bool))) (m : ActiveMap),
      (∀ c ∈ calls, ∀ r ∈ c.1, r.act = A r.name) →
      DispatchEv.execUpd n v ∉ (dispatchRun m calls).2 := by
  intro calls
  induction calls with
  | nil => intro m _; simp [dispatchRun]
  | cons c rest ih =>
    intro m hacts hmem
    have hactsc : ∀ r ∈ c.1, r.act = A r.name := hacts c (List.mem_cons_self c rest)
    have hactsrest : ∀ x ∈ rest, ∀ r ∈ x.1, r.act = A r.name :=
      fun x hx => hacts x (List.mem_cons_of_mem c hx)
    cases c with
    | mk recs rf =>
      simp only [dispatchRun, dispatch, List.append_assoc, List.mem_append] at hmem
      rcases hmem with h | h | h
      · exact absurd (dispatchLoop_no_upd n v A hcont recs m [] [] hactsc h) (by simp)
      · simp only [releasePhase] at h
        exact releaseEvs_no_upd n v rf _ h
      · exact ih _ hactsrest h

/-- C7 (amended): provided no `execute` call raises, every gesture's call
trace obeys the outstanding-execute discipline — a first `execute` happens
only with no outstanding call, continuous-update re-invocations and
`release` only with exactly one outstanding, so the number of outstanding
(unreleased) execute calls per gesture name is always 0 or 1 — and an
action that is not continuous never receives an update re-invocation at
all.  (As stated the claim fails: an activation-edge `execute` that raises
is retried as a fresh edge next frame, giving two back-to-back `execute`
calls with no intervening `release`.) -/
theorem C7_outstanding_discipline (A : String → ActionSpec)
    (calls : List (List ActivationRec × (String → Bool)))
    (hf : ∀ c ∈ calls, ∀ r ∈ c.1, r.execFails = false)
    (hacts : ∀ c ∈ calls, ∀ r ∈ c.1, r.act = A r.name) (n : String) :
    (traceRun n (dispatchRun [] calls).2 false).isSome = true ∧
    (isContinuousAction (A n) = false →
      ∀ v : ℚ, DispatchEv.execUpd n v ∉ (dispatchRun [] calls).2) := by
  constructor
  · have h := dispatchRun_traceRun n calls [] (by simp) hf
    simp only [mapLookup, Option.isSome_none] at h
    rw [h]
    rfl
  · intro hcont v
    exact dispatchRun_no_upd n v A hcont calls [] hacts

/-- C7 witness: a single successful dispatch of an active keyboard gesture
has a valid call trace and no continuous-update re-invocation. -/
theorem C7_outstanding_discipline_witness :
    (traceRun "g" (dispatchRun [] [(c4call1, noRelFail)]).2 false).isSome = true ∧
    DispatchEv.execUpd "g" 1 ∉ (dispatchRun [] [(c4call1, noRelFail)]).2 := by
  have hf : ∀ c ∈ [(c4call1, noRelFail)], ∀ r ∈ c.1, r.execFails = false := by
    intro c hc r hr
    simp only [List.mem_singleton] at hc
    subst hc
    simp only [c4call1, List.mem_singleton] at hr
    subst hr
    rfl
  have hacts : ∀ c ∈ [(c4call1, noRelFail)], ∀ r ∈ c.1,
      r.act = (fun _ => kbActSpec) r.name := by
    intro c hc r hr
    simp only [List.mem_singleton] at hc
    subst hc
    simp only [c4call1, List.mem_singleton] at hr
    subst hr
    rfl
  have h := C7_outstanding_discipline (fun _ => kbActSpec) [(c4call1, noRelFail)] hf hacts "g"
  exact ⟨h.1, h.2 (by decide) 1⟩
